import Mathlib

/-!
Verification of the natural-language-to-SQL query system
(`kaymet_txt_to_sql_ahmet`): shallow embedding of the persisted schema
(`query_history_schema.sql`), the frontend page component (`page.tsx`),
and — where the backend pipeline exists only through its SQL schema,
HTTP contract and callers — definitions modelled from the design
specification, each marked as such in its doc comment.
-/

namespace NlSql

/-! ## Query-result values

The backend stores `query_result` as a JSON string (column comment in
`query_history_schema.sql`: "Query results stored as JSON string"); a
result is an ordered sequence of row mappings. Cells are modelled as
null, integer or string only: the real data also contains non-integer
numbers (SQLite REAL columns such as `PricePerQuantity`, aggregates
like `AVG`), whose wire values live in IEEE-754 binary64 on the
consumer side — floating-point semantics that this embedding does not
model, so no claim about numeric value preservation is settled against
these types. -/

/-- Scalar value of a result cell as modelled: null, integer or string.
Non-integer JSON numbers are deliberately outside the model (see the
section comment); integer cells appear in claims only inside opaque
serialized payloads, never via their parse-side value semantics. -/
inductive Scalar
  | snull
  | sint (n : Int)
  | sstr (s : String)
deriving DecidableEq, Repr

/-- One result row: an ordered mapping from field names to scalars. -/
abbrev RowMap := List (String × Scalar)

/-- A query result: an ordered sequence of row mappings. -/
abbrev ResultRows := List RowMap

/-! ### Serialization (modelled JSON encoder)

Modelled from the spec: the backend's write-side serialization of
`query_result` ("a `query_result` serialized on write"; the backend
source is not in the repository snapshot, only its schema and callers).
The encoder emits standard JSON for the two-level array-of-objects
shape over the modelled cell types, escaping quotes and backslashes in
strings. In the claims below its output is used as an opaque persisted
payload (the string stored in `query_history.query_result`); no claim
relies on it as a value-complete model of the real encoder. -/

/-- Escape `"` and `\` by prefixing a backslash, as a JSON encoder does. -/
def escChars : List Char → List Char
  | [] => []
  | c :: cs => if c = '"' ∨ c = '\\' then '\\' :: c :: escChars cs else c :: escChars cs

/-- Decimal digits of a natural number, most significant first. -/
def renderNatChars (n : Nat) : List Char :=
  if n = 0 then ['0'] else ((Nat.digits 10 n).map Nat.digitChar).reverse

/-- Decimal rendering of an integer, with a leading minus sign when negative. -/
def renderIntChars (n : Int) : List Char :=
  if n < 0 then '-' :: renderNatChars n.natAbs else renderNatChars n.natAbs

/-- JSON rendering of a scalar. -/
def renderScalarChars : Scalar → List Char
  | .snull => ['n', 'u', 'l', 'l']
  | .sint n => renderIntChars n
  | .sstr s => '"' :: (escChars s.data ++ ['"'])

/-- JSON rendering of one `"name": value` member. -/
def renderFieldChars (f : String × Scalar) : List Char :=
  '"' :: (escChars f.1.data ++ '"' :: ':' :: renderScalarChars f.2)

/-- Comma-separated rendering of an object's members. -/
def renderFieldsChars : List (String × Scalar) → List Char
  | [] => []
  | [f] => renderFieldChars f
  | f :: fs => renderFieldChars f ++ ',' :: renderFieldsChars fs

/-- JSON rendering of one row as an object. -/
def renderRowChars (r : RowMap) : List Char :=
  '{' :: (renderFieldsChars r ++ ['}'])

/-- Comma-separated rendering of the rows. -/
def renderRowsChars : ResultRows → List Char
  | [] => []
  | [r] => renderRowChars r
  | r :: rs => renderRowChars r ++ ',' :: renderRowsChars rs

/-- JSON rendering of a result as an array of objects. -/
def renderResultChars (q : ResultRows) : List Char :=
  '[' :: (renderRowsChars q ++ [']'])

/-- Modelled from the spec: serialization of a `query_result` on write —
the JSON string persisted in `query_history.query_result`. -/
def serializeResult (q : ResultRows) : String :=
  String.mk (renderResultChars q)

/-! ### Parsing (shape recognizer for the frontend's `JSON.parse` call)

The frontend parses `query_result` strings with `JSON.parse`
(`page.tsx`), which throws on malformed input. The claims settled here
use only the success/failure control flow of that call, so we embed a
partial recognizer of the serialized array-of-objects shape: it fails
(returns `none`) on non-conforming input, modelling the thrown
exception caught by the frontend. It is not a value-faithful model of
JavaScript's number semantics — `JSON.parse` yields IEEE-754 binary64
numbers, losing integers above 2^53 — so no claim about parsed numeric
values is settled against it. -/

/-- Parse the body of a JSON string after the opening quote: unescape
backslash pairs, stop at the closing quote, return content and rest. -/
def parseStringBody : List Char → Option (List Char × List Char)
  | [] => none
  | c :: rest =>
    if c = '"' then some ([], rest)
    else if c = '\\' then
      match rest with
      | [] => none
      | c2 :: rest2 => (parseStringBody rest2).map (fun p => (c2 :: p.1, p.2))
    else (parseStringBody rest).map (fun p => (c :: p.1, p.2))

/-- Split a leading run of decimal digits from the input. -/
def takeDigits : List Char → List Char × List Char
  | [] => ([], [])
  | c :: cs =>
    if c.isDigit then
      let p := takeDigits cs
      (c :: p.1, p.2)
    else ([], c :: cs)

/-- Accumulate a decimal digit string into a natural number. -/
def digitsToNat : List Char → Nat → Nat
  | [], acc => acc
  | c :: cs, acc => digitsToNat cs (acc * 10 + (c.toNat - '0'.toNat))

/-- Parse a nonempty run of decimal digits as a natural number. -/
def parseNatChars (cs : List Char) : Option (Nat × List Char) :=
  let p := takeDigits cs
  if p.1 = [] then none else some (digitsToNat p.1 0, p.2)

/-- Recognize one scalar of the serialized shape: a string, a
(possibly negative) decimal integer numeral, or `null`. The numeral is
read exactly; the real consumer's binary64 rounding of numbers is
outside the model (see the section comment). -/
def parseScalar (cs : List Char) : Option (Scalar × List Char) :=
  match cs with
  | [] => none
  | c :: rest =>
    if c = '"' then (parseStringBody rest).map (fun p => (.sstr (String.mk p.1), p.2))
    else if c = '-' then (parseNatChars rest).map (fun p => (.sint (-(p.1 : Int)), p.2))
    else if c = 'n' then
      match rest with
      | 'u' :: 'l' :: 'l' :: rest2 => some (.snull, rest2)
      | _ => none
    else (parseNatChars (c :: rest)).map (fun p => (.sint ((p.1 : Int)), p.2))

/-- Parse one `"name": value` member of an object. -/
def parseField (cs : List Char) : Option ((String × Scalar) × List Char) :=
  match cs with
  | '"' :: rest =>
    (parseStringBody rest).bind fun p =>
      match p.2 with
      | ':' :: r2 => (parseScalar r2).map (fun q => ((String.mk p.1, q.1), q.2))
      | _ => none
  | _ => none

/-- Parse the members of a nonempty object up to the closing brace;
`fuel` bounds the number of members (callers pass the input length). -/
def parseFieldsAux : Nat → List Char → Option (RowMap × List Char)
  | 0, _ => none
  | fuel + 1, cs =>
    (parseField cs).bind fun p =>
      match p.2 with
      | ',' :: r2 => (parseFieldsAux fuel r2).map (fun q => (p.1 :: q.1, q.2))
      | '}' :: r2 => some ([p.1], r2)
      | _ => none

/-- Parse one row: a JSON object of scalar members. -/
def parseRow (cs : List Char) : Option (RowMap × List Char) :=
  match cs with
  | '{' :: '}' :: rest => some ([], rest)
  | '{' :: rest => parseFieldsAux rest.length rest
  | _ => none

/-- Parse the elements of a nonempty array up to the closing bracket;
`fuel` bounds the number of rows (callers pass the input length). -/
def parseRowsAux : Nat → List Char → Option (ResultRows × List Char)
  | 0, _ => none
  | fuel + 1, cs =>
    (parseRow cs).bind fun p =>
      match p.2 with
      | ',' :: r2 => (parseRowsAux fuel r2).map (fun q => (p.1 :: q.1, q.2))
      | ']' :: r2 => some ([p.1], r2)
      | _ => none

/-- Parse a result: a JSON array of objects. -/
def parseResultChars (cs : List Char) : Option (ResultRows × List Char) :=
  match cs with
  | '[' :: ']' :: rest => some ([], rest)
  | '[' :: rest => parseRowsAux rest.length rest
  | _ => none

/-- The success/failure behavior of the consumer's `JSON.parse` on a
`query_result` string (`page.tsx`), as a recognizer of the serialized
shape; fails — modelling the thrown exception — unless the whole input
is one result. -/
def parseResult (s : String) : Option ResultRows :=
  match parseResultChars s.data with
  | some (r, []) => some r
  | _ => none

/-! ## Schema Catalog (`table_column_descriptions`, `query_history_schema.sql`)

`CREATE TABLE table_column_descriptions (table_name TEXT NOT NULL,
column_name TEXT NOT NULL, description TEXT NOT NULL,
PRIMARY KEY (table_name, column_name))`, seeded with
`INSERT OR REPLACE` rows. -/

/-- A catalog row: `(table_name, column_name, description)`. -/
structure SchemaDescriptor where
  table_name : String
  column_name : String
  description : String
deriving DecidableEq, Repr

/-- Primary-key equality: same `(table_name, column_name)`. -/
def keyEqb (a b : SchemaDescriptor) : Bool :=
  decide (a.table_name = b.table_name) && decide (a.column_name = b.column_name)

/-- SQLite `INSERT OR REPLACE` against the `(table_name, column_name)`
primary key: delete any conflicting row, then insert the new row. -/
def insertOrReplace (c : List SchemaDescriptor) (d : SchemaDescriptor) :
    List SchemaDescriptor :=
  (c.filter (fun e => !(keyEqb e d))) ++ [d]

/-- No two catalog rows share a `(table_name, column_name)` key. -/
def uniqueKeys (c : List SchemaDescriptor) : Prop :=
  List.Pairwise (fun a b => keyEqb a b = false) c

/-- The six seed descriptor rows of `query_history_schema.sql`. -/
def seedDescriptors : List SchemaDescriptor :=
  [⟨"query_history", "id", "Unique identifier for each query record"⟩,
   ⟨"query_history", "session_id", "UUID for grouping related queries"⟩,
   ⟨"query_history", "natural_query", "Original natural language query from user"⟩,
   ⟨"query_history", "sql_query", "Generated SQL query"⟩,
   ⟨"query_history", "query_result", "Query results stored as JSON string"⟩,
   ⟨"query_history", "timestamp", "When the query was executed"⟩]

/-- The catalog after running the schema script's seed inserts on an
empty table. -/
def table_column_descriptions : List SchemaDescriptor :=
  seedDescriptors.foldl insertOrReplace []

/-! ## Query history (`query_history`, `query_history_schema.sql`)

`CREATE TABLE query_history (id INTEGER PRIMARY KEY AUTOINCREMENT,
session_id TEXT NOT NULL, natural_query TEXT NOT NULL, sql_query TEXT
NOT NULL, query_result TEXT NOT NULL, timestamp DATETIME DEFAULT
CURRENT_TIMESTAMP)`. -/

/-- The columns of the persisted `query_history` table, in declaration
order. -/
def queryHistoryColumns : List String :=
  ["id", "session_id", "natural_query", "sql_query", "query_result", "timestamp"]

/-- One persisted row of `query_history` (the spec's QueryRecord): the
NOT NULL columns are plain values, `timestamp` is modelled as a number. -/
structure QueryRecord where
  id : Nat
  session_id : String
  natural_query : String
  sql_query : String
  query_result : String
  timestamp : Nat
deriving DecidableEq, Repr

/-- The history table plus its AUTOINCREMENT counter (SQLite hands out
strictly increasing ids; `nextId` is the next id to assign). -/
structure Store where
  rows : List QueryRecord
  nextId : Nat
deriving DecidableEq, Repr

/-- A fresh database: no rows, AUTOINCREMENT starts at 1. -/
def emptyStore : Store := { rows := [], nextId := 1 }

/-- A candidate row before the NOT NULL / DEFAULT clauses are applied:
every column may be NULL (`none`), `id` is assigned by the engine. -/
structure PendingRow where
  session_id : Option String
  natural_query : Option String
  sql_query : Option String
  query_result : Option String
  timestamp : Option Nat
deriving DecidableEq, Repr

/-- An INSERT into `query_history`: rejected (`none`) if any NOT NULL
column is NULL; `id` is the AUTOINCREMENT value; a missing `timestamp`
defaults to `CURRENT_TIMESTAMP` (`now`). -/
def insertHistory (now : Nat) (st : Store) (p : PendingRow) : Option Store :=
  match p.session_id, p.natural_query, p.sql_query, p.query_result with
  | some sid, some nq, some sql, some res =>
    let row : QueryRecord :=
      { id := st.nextId, session_id := sid, natural_query := nq,
        sql_query := sql, query_result := res, timestamp := p.timestamp.getD now }
    some { rows := st.rows ++ [row], nextId := st.nextId + 1 }
  | _, _, _, _ => none

/-! ## SQL Validator

Modelled from the spec: the backend Validator is not in the repository
snapshot (only its schema, HTTP contract and frontend caller are). Per
the spec it rejects empty/whitespace-only input, statements containing
the write verbs INSERT/UPDATE/DELETE/DROP/ALTER/CREATE, stacked
statements chained with `;`, and non-SELECT statements, and returns the
original string unchanged on success. (The spec's additional check that
identifiers exist in the catalog is not needed by any claim and is not
modelled.) -/

/-- Whitespace characters: space, tab, newline, carriage return. -/
def isWs (c : Char) : Bool := c = ' ' || c = '\t' || c = '\n' || c = '\r'

/-- Remove leading and trailing whitespace from a character list. -/
def trimChars (l : List Char) : List Char :=
  ((l.dropWhile isWs).reverse.dropWhile isWs).reverse

/-- The host languages' string `trim` (leading/trailing whitespace
removed), implemented over the character list. -/
def trimStr (s : String) : String := String.mk (trimChars s.data)

/-- Uppercase every character of a string. -/
def upperStr (s : String) : String := String.mk (s.data.map Char.toUpper)

/-- SQL word characters: letters, digits and underscore. -/
def isWordChar (c : Char) : Bool := c.isAlphanum || c == '_'

/-- Split into maximal runs of word characters, dropping separators;
`acc` holds the current word reversed. -/
def wordsAux : List Char → List Char → List (List Char)
  | [], acc => if acc = [] then [] else [acc.reverse]
  | c :: cs, acc =>
    if isWordChar c then wordsAux cs (c :: acc)
    else if acc = [] then wordsAux cs [] else acc.reverse :: wordsAux cs []

/-- The words of a statement, uppercased (SQL keywords are
case-insensitive). -/
def sqlWords (s : String) : List String :=
  (wordsAux (upperStr s).data []).map (fun w => String.mk w)

/-- Split a character list at `;` separators. -/
def splitSemi : List Char → List (List Char)
  | [] => [[]]
  | c :: cs =>
    if c = ';' then [] :: splitSemi cs
    else
      match splitSemi cs with
      | [] => [[c]]
      | g :: gs => (c :: g) :: gs

/-- The DDL/DML write verbs the Validator rejects. -/
def writeVerbs : List String := ["INSERT", "UPDATE", "DELETE", "DROP", "ALTER", "CREATE"]

/-- Does the statement contain a write verb as one of its words? -/
def containsWriteVerb (s : String) : Bool :=
  (sqlWords s).any (fun w => writeVerbs.contains w)

/-- Is the input more than one statement chained with `;` (ignoring a
trailing separator)? -/
def isStacked (s : String) : Bool :=
  decide (((splitSemi s.data).filter (fun p => !(decide (trimChars p = [])))).length > 1)

/-- Does the statement start with the word `SELECT`? -/
def isSelectStatement (s : String) : Bool :=
  decide ((sqlWords s).head? = some "SELECT")

/-- The Validator's rejection outcome. -/
inductive ValidationError
  | mk
deriving DecidableEq, Repr

/-- Modelled from the spec: `validate` — the safety gate. Empty input,
write verbs, stacked statements and non-SELECT statements are rejected;
a passing statement is returned unchanged. -/
def validate (s : String) : Except ValidationError String :=
  if trimStr s = "" then .error .mk
  else if containsWriteVerb s then .error .mk
  else if isStacked s then .error .mk
  else if !(isSelectStatement s) then .error .mk
  else .ok s

/-- Did the statement pass the Validator? -/
def validateOk (s : String) : Bool :=
  match validate s with
  | .ok _ => true
  | .error _ => false

/-! ## Execute pipeline and API layer

Modelled from the spec: the backend `/execute-sql` pipeline (generate →
validate → execute → record) is not in the repository snapshot. The
language model and the database engine are passed in as function
parameters (the spec's test guidance: substitute deterministic stubs for
the external services). -/

/-- The pipeline's failure taxonomy as surfaced by the API layer. -/
inductive ApiError
  | generationError
  | validationError
  | executionError
deriving DecidableEq, Repr

/-- The `/execute-sql` response body, as declared by the frontend's
`QueryResult` interface: `{explanation, sql_query, results, session_id}`. -/
structure QueryResult where
  explanation : String
  sql_query : String
  results : ResultRows
  session_id : String
deriving DecidableEq, Repr

/-- Modelled from the spec: `record` — append exactly one row to the
history under the given session id, with the AUTOINCREMENT id. -/
def Store.record (st : Store) (sid nq sql res : String) (now : Nat) :
    QueryRecord × Store :=
  let row : QueryRecord :=
    { id := st.nextId, session_id := sid, natural_query := nq,
      sql_query := sql, query_result := res, timestamp := now }
  (row, { rows := st.rows ++ [row], nextId := st.nextId + 1 })

/-- Modelled from the spec: the `/execute-sql` pipeline. `gen` is the
SQL Generator (external model call), `execOp` the Query Executor
(database engine); `fresh` is the identifier minted when `sid` is
absent; `now` is the creation time. Returns the response or the first
failure, alongside the store (unchanged on every failure path). -/
def executePipeline (gen : String → Except Unit (String × String))
    (execOp : String → Except Unit ResultRows)
    (st : Store) (q : String) (sid : Option String) (fresh : String) (now : Nat) :
    Except ApiError QueryResult × Store :=
  if trimStr q = "" then (.error .validationError, st)
  else
    match gen q with
    | .error _ => (.error .generationError, st)
    | .ok (sql, expl) =>
      match validate sql with
      | .error _ => (.error .validationError, st)
      | .ok vsql =>
        match execOp vsql with
        | .error _ => (.error .executionError, st)
        | .ok rows =>
          let sid2 := sid.getD fresh
          let r0 := st.record sid2 q vsql (serializeResult rows) now
          (.ok { explanation := expl, sql_query := vsql, results := rows,
                 session_id := sid2 }, r0.2)

/-- Every persisted row's `sql_query` passed the Validator. -/
def storeValidated (st : Store) : Bool :=
  st.rows.all (fun r => validateOk r.sql_query)

/-- Every persisted id is below the AUTOINCREMENT counter (so the next
assigned id is strictly greater than every existing id). -/
def idsBelow (st : Store) : Bool :=
  st.rows.all (fun r => decide (r.id < st.nextId))

/-! ## Sessions (derived view) -/

/-- First occurrences of a list of strings in order, skipping those
already seen. -/
def dedupAux : List String → List String → List String
  | [], _ => []
  | x :: xs, seen => if seen.contains x then dedupAux xs seen else x :: dedupAux xs (x :: seen)

/-- First occurrences of a list of strings, in order. -/
def dedupKeepFirst (l : List String) : List String := dedupAux l []

/-- The distinct session ids present in the history, in first-insertion
order. -/
def sessionIds (rows : List QueryRecord) : List String :=
  dedupKeepFirst (rows.map (fun r => r.session_id))

/-- A session as served by `/sessions` and consumed by the frontend's
`Session` interface: `{id, queries}`. -/
structure Session where
  id : String
  queries : List QueryRecord
deriving DecidableEq, Repr

/-- Modelled from the spec: `list_sessions` — each session carries its
QueryRecords in insertion (store) order. -/
def list_sessions (st : Store) : List Session :=
  (sessionIds st.rows).map
    (fun sid => { id := sid, queries := st.rows.filter (fun r => decide (r.session_id = sid)) })

/-- The frontend history display order (`page.tsx`:
`[...queries].reverse().map(...)`): reverse of the served order. -/
def renderHistory (qs : List QueryRecord) : List QueryRecord := qs.reverse

/-- Are the ids strictly increasing along the list? -/
def idsAsc : List QueryRecord → Bool
  | [] => true
  | r :: rs => rs.all (fun x => decide (r.id < x.id)) && idsAsc rs

/-- Are the ids strictly decreasing along the list? -/
def idsDesc : List QueryRecord → Bool
  | [] => true
  | r :: rs => rs.all (fun x => decide (x.id < r.id)) && idsDesc rs

/-! ## Frontend (`page.tsx`) -/

/-- A `query_result` value as delivered by `/sessions`: a JSON-encoded
string or an already-structured value (the interface's comment: "can be
string or parsed JSON"). -/
inductive RVal
  | rstr (s : String)
  | rjson (rows : ResultRows)
deriving DecidableEq, Repr

/-- The frontend's `QueryHistoryItem` interface: `title` is `Option`
because the fetched JSON may lack it (the code defensively defaults it). -/
structure QueryHistoryItem where
  id : Nat
  session_id : String
  natural_query : String
  sql_query : String
  gpt_explanation : String
  query_result : RVal
  timestamp : String
  title : Option String
deriving DecidableEq, Repr

/-- The fields declared by the frontend's `QueryHistoryItem` interface. -/
def queryHistoryItemFields : List String :=
  ["id", "session_id", "natural_query", "sql_query", "gpt_explanation", "query_result",
   "timestamp", "title"]

/-- JavaScript falsiness of the `title` value: missing or empty. -/
def jsFalsy : Option String → Bool
  | none => true
  | some s => decide (s = "")

/-- `if (!query.title) query.title = ''` from `fetchSessions`. -/
def defaultTitle (q : QueryHistoryItem) : QueryHistoryItem :=
  if jsFalsy q.title then { q with title := some "" } else q

/-- The per-query normalization inside `fetchSessions` (`page.tsx` lines
139–156): default a missing title, then `JSON.parse` the `query_result`
only when it is a string; the `catch` branch returns the item (title
already defaulted in place) with its `query_result` unparsed. -/
def normalizeQuery (q : QueryHistoryItem) : QueryHistoryItem :=
  let q1 := defaultTitle q
  match q1.query_result with
  | .rstr s =>
    match parseResult s with
    | some rows => { q1 with query_result := .rjson rows }
    | none => q1
  | .rjson _ => q1

/-- JavaScript `selectedSession || undefined`: `null` and `""` become
`undefined`. -/
def orUndefined : Option String → Option String
  | none => none
  | some s => if s = "" then none else some s

/-- The request `handleSubmit` sends (`page.tsx` lines 201–218): nothing
when the trimmed input is empty (guard with toast and early return),
otherwise `{query: query.trim(), session_id: selectedSession || undefined}`. -/
def handleSubmitSends (input : String) (selectedSession : Option String) :
    Option (String × Option String) :=
  if trimStr input = "" then none
  else some (trimStr input, orUndefined selectedSession)

/-! ## Deterministic stubs for the external services (spec §9) -/

/-- A deterministic SQL Generator stub returning a fixed SELECT and
explanation. -/
def genStub : String → Except Unit (String × String) :=
  fun _ => .ok ("SELECT * FROM Products", "Selects every product row")

/-- A deterministic Query Executor stub returning one fixed row. -/
def execStub : String → Except Unit ResultRows :=
  fun _ => .ok [[("ProductID", .sint 1), ("Name", .sstr "Classic Tee")]]

/-- The row a successful pipeline run appends: AUTOINCREMENT id, the
response's session id and SQL, the request's natural query, the
serialized results, the creation time. -/
def appendedRow (st : Store) (q : String) (sid : Option String) (fresh : String)
    (resp : QueryResult) (now : Nat) : QueryRecord :=
  { id := st.nextId, session_id := sid.getD fresh, natural_query := q,
    sql_query := resp.sql_query, query_result := serializeResult resp.results,
    timestamp := now }

/-- The row a successful INSERT stores: AUTOINCREMENT id, the supplied
non-null columns, and `timestamp` defaulted to `now` when absent. -/
def insertedRow (now : Nat) (st : Store) (p : PendingRow) : QueryRecord :=
  { id := st.nextId, session_id := p.session_id.getD "",
    natural_query := p.natural_query.getD "", sql_query := p.sql_query.getD "",
    query_result := p.query_result.getD "", timestamp := p.timestamp.getD now }

/-! ## Concrete instances used by the witness checks -/

/-- Sample query rows as returned by the executor stub. -/
def sampleRows : ResultRows := [[("ProductID", .sint 1), ("Name", .sstr "Classic Tee")]]

/-- The response of the concrete witness pipeline run. -/
def respW : QueryResult :=
  { explanation := "Selects every product row", sql_query := "SELECT * FROM Products",
    results := sampleRows, session_id := "s-1" }

/-- The store after the concrete witness pipeline run. -/
def stW : Store :=
  { rows := [appendedRow emptyStore "show products" none "s-1" respW 0], nextId := 2 }

/-- A first session row for the concrete two-record store. -/
def rowA : QueryRecord := ⟨1, "s-a", "q1", "SELECT 1", "[]", 0⟩

/-- A second session row for the concrete two-record store. -/
def rowB : QueryRecord := ⟨2, "s-a", "q2", "SELECT 2", "[]", 1⟩

/-- A concrete store holding one session with two records. -/
def stTwo : Store := ⟨[rowA, rowB], 3⟩

/-- The session served for `stTwo`. -/
def sessA : Session := ⟨"s-a", [rowA, rowB]⟩

/-- A fetched history item with a missing title and an unparsable
`query_result` string. -/
def qBad : QueryHistoryItem :=
  ⟨1, "s-a", "show products", "SELECT * FROM Products", "expl", .rstr "oops",
   "2024-01-01", none⟩

/-- A fully populated pending row without a timestamp. -/
def pW : PendingRow :=
  ⟨some "s-1", some "show products", some "SELECT * FROM Products", some "[]", none⟩

/-- The store after inserting `pW` at time 7. -/
def stP : Store := { rows := [insertedRow 7 emptyStore pW], nextId := 2 }

/-! ## Helper lemmas about the Validator and the pipeline -/

/-- A passing statement is returned unchanged, and passes none of the
rejection tests. -/
theorem validate_ok_eq (s v : String) (h : validate s = .ok v) :
    v = s ∧ isSelectStatement s = true ∧ containsWriteVerb s = false ∧
      isStacked s = false ∧ trimStr s ≠ "" := by
  unfold validate at h
  split_ifs at h with h1 h2 h3 h4
  simp only [Except.ok.injEq] at h
  subst h
  exact ⟨rfl, by simpa using h4, by simpa using h2, by simpa using h3, h1⟩

/-- Case analysis of one pipeline run: either it fails and leaves the
store untouched, or it succeeds, appends exactly one row built from the
response, and that row's statement passed the Validator. -/
theorem pipeline_spec (gen : String → Except Unit (String × String))
    (execOp : String → Except Unit ResultRows)
    (st : Store) (q : String) (sid : Option String) (fresh : String) (now : Nat) :
    (∃ e, executePipeline gen execOp st q sid fresh now = (.error e, st)) ∨
    (∃ resp, executePipeline gen execOp st q sid fresh now =
        (.ok resp, { rows := st.rows ++ [appendedRow st q sid fresh resp now],
                     nextId := st.nextId + 1 }) ∧
      validate resp.sql_query = .ok resp.sql_query ∧
      resp.session_id = sid.getD fresh) := by
  unfold executePipeline
  split
  · exact Or.inl ⟨.validationError, rfl⟩
  · split
    · exact Or.inl ⟨.generationError, rfl⟩
    · next sql expl hgen =>
      split
      · exact Or.inl ⟨.validationError, rfl⟩
      · next vsql hval =>
        obtain ⟨rfl, -, -, -, -⟩ := validate_ok_eq sql vsql hval
        split
        · exact Or.inl ⟨.executionError, rfl⟩
        · next rows hexec =>
          right
          refine ⟨{ explanation := expl, sql_query := vsql, results := rows,
                    session_id := sid.getD fresh }, ?_, hval, rfl⟩
          simp [Store.record, appendedRow]

/-! ## Claim C1 -/

/-- C1: the Validator never accepts a non-read-only statement — any
statement containing a write verb (INSERT, UPDATE, DELETE, DROP, ALTER,
CREATE) or stacked statements is rejected, an accepted statement is an
unchanged SELECT with no write verb and no stacking, and the pipeline
preserves the invariant that every persisted QueryRecord's `sql_query`
passed the Validator. -/
theorem C1_validator_safety :
    (∀ s, containsWriteVerb s = true ∨ isStacked s = true → validate s = .error .mk) ∧
    (∀ s v, validate s = .ok v →
      v = s ∧ isSelectStatement s = true ∧ containsWriteVerb s = false ∧
        isStacked s = false) ∧
    (∀ gen execOp st q sid fresh now, storeValidated st = true →
      storeValidated (executePipeline gen execOp st q sid fresh now).2 = true) := by
  refine ⟨?_, ?_, ?_⟩
  · intro s h
    unfold validate
    split_ifs with h1 h2 h3 h4
    · rfl
    · rfl
    · rfl
    · rfl
    · rcases h with h | h
      · exact absurd h h2
      · exact absurd h h3
  · intro s v h
    obtain ⟨h1, h2, h3, h4, -⟩ := validate_ok_eq s v h
    exact ⟨h1, h2, h3, h4⟩
  · intro gen execOp st q sid fresh now hst
    rcases pipeline_spec gen execOp st q sid fresh now with ⟨e, heq⟩ | ⟨resp, heq, hval, -⟩
    · rw [heq]
      exact hst
    · rw [heq]
      unfold storeValidated validateOk at hst ⊢
      simp only [List.all_append, List.all_cons, List.all_nil, Bool.and_eq_true,
        Bool.and_true, appendedRow]
      exact ⟨hst, by rw [hval]⟩

/-- C1 witness: a DROP statement is rejected, and a concrete pipeline
run preserves the validated-store invariant. -/
theorem C1_validator_safety_witness :
    validate "DROP TABLE Products" = .error .mk ∧
    storeValidated (executePipeline genStub execStub emptyStore "show products"
      none "s-1" 0).2 = true :=
  ⟨C1_validator_safety.1 "DROP TABLE Products" (Or.inl (by decide)),
   C1_validator_safety.2.2 genStub execStub emptyStore "show products" none "s-1" 0
     (by decide)⟩

/-! ## Claim C4 -/

/-- C4: an empty or whitespace-only query is rejected by the pipeline as
a ValidationError with the store unchanged (no QueryRecord persisted),
and the frontend's `handleSubmit` does not even send a request for it. -/
theorem C4_blank_input_rejected (gen : String → Except Unit (String × String))
    (execOp : String → Except Unit ResultRows) (st : Store) (q : String)
    (sid : Option String) (fresh : String) (now : Nat) (sel : Option String)
    (h : trimStr q = "") :
    executePipeline gen execOp st q sid fresh now = (.error .validationError, st) ∧
    handleSubmitSends q sel = none := by
  constructor
  · unfold executePipeline
    rw [if_pos h]
  · unfold handleSubmitSends
    rw [if_pos h]

/-- C4 witness: the whitespace-only query `"  "` is rejected with the
store unchanged and no request sent. -/
theorem C4_blank_input_rejected_witness :
    trimStr "  " = "" ∧
    (executePipeline genStub execStub emptyStore "  " none "s-1" 0 =
        (.error .validationError, emptyStore) ∧
      handleSubmitSends "  " (some "s-1") = none) :=
  ⟨by decide,
   C4_blank_input_rejected genStub execStub emptyStore "  " none "s-1" 0 (some "s-1")
     (by decide)⟩

/-! ## Claim C5 -/

/-- C5: the query history is an append-only log — a successful
execute-call appends exactly one QueryRecord whose id (the
AUTOINCREMENT value) is strictly greater than every previously assigned
id, a failed call leaves the store untouched, and existing records are
never updated or deleted. -/
theorem C5_append_only (gen : String → Except Unit (String × String))
    (execOp : String → Except Unit ResultRows) (st : Store) (q : String)
    (sid : Option String) (fresh : String) (now : Nat)
    (hid : idsBelow st = true) :
    (∀ resp st', executePipeline gen execOp st q sid fresh now = (.ok resp, st') →
      st'.rows = st.rows ++ [appendedRow st q sid fresh resp now] ∧
      st.rows.all (fun r =>
        decide (r.id < (appendedRow st q sid fresh resp now).id)) = true ∧
      idsBelow st' = true) ∧
    (∀ e st', executePipeline gen execOp st q sid fresh now = (.error e, st') →
      st' = st) := by
  rcases pipeline_spec gen execOp st q sid fresh now with ⟨e0, heq⟩ | ⟨resp0, heq, -, -⟩
  · constructor
    · intro resp st' h
      rw [heq] at h
      simp at h
    · intro e st' h
      rw [heq] at h
      simp only [Prod.mk.injEq] at h
      exact h.2.symm
  · constructor
    · intro resp st' h
      rw [heq] at h
      simp only [Prod.mk.injEq, Except.ok.injEq] at h
      obtain ⟨rfl, rfl⟩ := h
      refine ⟨rfl, ?_, ?_⟩
      · simpa [appendedRow, idsBelow] using hid
      · unfold idsBelow at hid ⊢
        simp only [List.all_append, List.all_cons, List.all_nil, Bool.and_eq_true,
          Bool.and_true, appendedRow]
        constructor
        · rw [List.all_eq_true] at hid ⊢
          intro r hr
          have := hid r hr
          simp only [decide_eq_true_eq] at this ⊢
          omega
        · simp
    · intro e st' h
      rw [heq] at h
      simp at h

/-- C5 witness: one concrete successful run on the empty store appends
exactly one row with a strictly greater id. -/
theorem C5_append_only_witness :
    stW.rows = emptyStore.rows ++ [appendedRow emptyStore "show products" none "s-1" respW 0] ∧
    emptyStore.rows.all (fun r =>
      decide (r.id < (appendedRow emptyStore "show products" none "s-1" respW 0).id)) = true ∧
    idsBelow stW = true :=
  (C5_append_only genStub execStub emptyStore "show products" none "s-1" 0 (by decide)).1
    respW stW rfl

/-! ## Claim C6 -/

/-- C6: when `/execute-sql` is called without a `session_id`, the
pipeline mints the fresh identifier: the response's `session_id` is the
fresh id, the appended QueryRecord carries it, and (the id being fresh)
the new session holds exactly that one record. -/
theorem C6_fresh_session (gen : String → Except Unit (String × String))
    (execOp : String → Except Unit ResultRows) (st : Store) (q : String)
    (fresh : String) (now : Nat)
    (hfresh : st.rows.all (fun r => !(decide (r.session_id = fresh))) = true) :
    ∀ resp st', executePipeline gen execOp st q none fresh now = (.ok resp, st') →
      resp.session_id = fresh ∧
      st'.rows = st.rows ++ [appendedRow st q none fresh resp now] ∧
      (appendedRow st q none fresh resp now).session_id = fresh ∧
      (st'.rows.filter (fun r => decide (r.session_id = fresh))).length = 1 := by
  intro resp st' h
  rcases pipeline_spec gen execOp st q none fresh now with ⟨e0, heq⟩ | ⟨resp0, heq, -, hsid⟩
  · rw [heq] at h
    simp at h
  · rw [heq] at h
    simp only [Prod.mk.injEq, Except.ok.injEq] at h
    obtain ⟨rfl, rfl⟩ := h
    have hsid' : resp0.session_id = fresh := by simpa using hsid
    refine ⟨hsid', rfl, by simp [appendedRow], ?_⟩
    rw [List.filter_append]
    have h1 : st.rows.filter (fun r => decide (r.session_id = fresh)) = [] := by
      rw [List.filter_eq_nil_iff]
      intro r hr
      have := (List.all_eq_true.mp hfresh) r hr
      simpa using this
    rw [h1]
    simp [appendedRow]

/-- C6 witness: the concrete run on the empty store without a session id
returns the minted id `"s-1"` and creates that one-record session. -/
theorem C6_fresh_session_witness :
    respW.session_id = "s-1" ∧
    stW.rows = emptyStore.rows ++ [appendedRow emptyStore "show products" none "s-1" respW 0] ∧
    (appendedRow emptyStore "show products" none "s-1" respW 0).session_id = "s-1" ∧
    (stW.rows.filter (fun r => decide (r.session_id = "s-1"))).length = 1 :=
  C6_fresh_session genStub execStub emptyStore "show products" "s-1" 0 (by decide)
    respW stW rfl

/-! ## Claim C7 -/

theorem all_filter_of_all {α : Type} (p f : α → Bool) (l : List α) (h : l.all p = true) :
    (l.filter f).all p = true := by
  rw [List.all_eq_true] at h ⊢
  intro x hx
  exact h x (List.mem_filter.mp hx).1

theorem idsAsc_filter (f : QueryRecord → Bool) (l : List QueryRecord)
    (h : idsAsc l = true) : idsAsc (l.filter f) = true := by
  induction l with
  | nil => rfl
  | cons r rs ih =>
    rw [idsAsc, Bool.and_eq_true] at h
    rw [List.filter_cons]
    by_cases hf : f r = true
    · rw [if_pos hf, idsAsc, Bool.and_eq_true]
      exact ⟨all_filter_of_all _ f rs h.1, ih h.2⟩
    · rw [if_neg hf]
      exact ih h.2

theorem idsDesc_append_singleton (A : List QueryRecord) (r : QueryRecord)
    (hA : idsDesc A = true) (hall : A.all (fun x => decide (r.id < x.id)) = true) :
    idsDesc (A ++ [r]) = true := by
  induction A with
  | nil => simp [idsDesc]
  | cons a A ih =>
    rw [idsDesc, Bool.and_eq_true] at hA
    rw [List.all_cons, Bool.and_eq_true] at hall
    rw [List.cons_append, idsDesc, Bool.and_eq_true]
    constructor
    · simp only [List.all_append, hA.1, Bool.true_and, List.all_cons, List.all_nil,
        Bool.and_true]
      exact hall.1
    · exact ih hA.2 hall.2

theorem idsDesc_reverse (l : List QueryRecord) (h : idsAsc l = true) :
    idsDesc l.reverse = true := by
  induction l with
  | nil => rfl
  | cons r rs ih =>
    rw [idsAsc, Bool.and_eq_true] at h
    rw [List.reverse_cons]
    apply idsDesc_append_singleton _ _ (ih h.2)
    rw [List.all_reverse]
    exact h.1

/-- C7: with ids assigned in increasing insertion order, every session
returned by `list_sessions` carries its QueryRecords oldest-first
(strictly increasing ids), and the frontend history display renders
exactly the reverse of that order (reverse-chronological). -/
theorem C7_session_order (st : Store) (hasc : idsAsc st.rows = true) :
    ∀ s ∈ list_sessions st,
      idsAsc s.queries = true ∧
      idsDesc (renderHistory s.queries) = true ∧
      renderHistory s.queries = s.queries.reverse := by
  intro s hs
  unfold list_sessions at hs
  simp only [List.mem_map] at hs
  obtain ⟨sid, hsid, rfl⟩ := hs
  exact ⟨idsAsc_filter _ _ hasc, idsDesc_reverse _ (idsAsc_filter _ _ hasc), rfl⟩

/-- C7 witness: the concrete two-record session is served oldest-first
and rendered in reverse. -/
theorem C7_session_order_witness :
    idsAsc sessA.queries = true ∧ idsDesc (renderHistory sessA.queries) = true ∧
    renderHistory sessA.queries = sessA.queries.reverse :=
  C7_session_order stTwo (by decide) sessA (by decide)

/-! ## Claim C8 -/

theorem keyEqb_eq (a b : SchemaDescriptor) :
    keyEqb a b = true ↔ a.table_name = b.table_name ∧ a.column_name = b.column_name := by
  simp [keyEqb]

theorem keyEqb_symm (a b : SchemaDescriptor) : keyEqb a b = keyEqb b a := by
  unfold keyEqb
  rw [show decide (a.table_name = b.table_name) = decide (b.table_name = a.table_name) from
      decide_eq_decide.mpr eq_comm,
    show decide (a.column_name = b.column_name) = decide (b.column_name = a.column_name) from
      decide_eq_decide.mpr eq_comm]

theorem filter_out_key_length (c : List SchemaDescriptor) (d : SchemaDescriptor)
    (h : uniqueKeys c) (hany : c.any (fun e => keyEqb e d) = true) :
    (c.filter (fun e => !(keyEqb e d))).length + 1 = c.length := by
  induction c with
  | nil => simp at hany
  | cons x xs ih =>
    unfold uniqueKeys at h
    rw [List.pairwise_cons] at h
    by_cases hx : keyEqb x d = true
    · have hxs : ∀ y ∈ xs, keyEqb y d = false := by
        intro y hy
        by_cases hyd : keyEqb y d = true
        · exfalso
          rw [keyEqb_eq] at hx hyd
          have hxy : keyEqb x y = true := by
            rw [keyEqb_eq]
            exact ⟨hx.1.trans hyd.1.symm, hx.2.trans hyd.2.symm⟩
          rw [h.1 y hy] at hxy
          cases hxy
        · exact Bool.eq_false_iff.mpr hyd
      rw [List.filter_cons, if_neg (by simp [hx])]
      have hself : xs.filter (fun e => !(keyEqb e d)) = xs := by
        rw [List.filter_eq_self]
        intro a ha
        simp [hxs a ha]
      rw [hself, List.length_cons]
    · have hx' : keyEqb x d = false := Bool.eq_false_iff.mpr hx
      have hany' : xs.any (fun e => keyEqb e d) = true := by
        rw [List.any_cons, Bool.or_eq_true] at hany
        rcases hany with h' | h'
        · exact absurd h' hx
        · exact h'
      rw [List.filter_cons, if_pos (by simp [hx'])]
      have := ih h.2 hany'
      simp only [List.length_cons]
      omega

/-- C8: the catalog is unique per `(table_name, column_name)` —
`INSERT OR REPLACE` preserves key-uniqueness, re-loading a descriptor
for an existing key replaces it rather than adding a duplicate (the
length is unchanged), and any two catalog rows with equal keys are the
same row. -/
theorem C8_catalog_unique (c : List SchemaDescriptor) (d : SchemaDescriptor)
    (h : uniqueKeys c) :
    uniqueKeys (insertOrReplace c d) ∧
    (c.any (fun e => keyEqb e d) = true → (insertOrReplace c d).length = c.length) ∧
    (∀ a ∈ insertOrReplace c d, ∀ b ∈ insertOrReplace c d, keyEqb a b = true → a = b) := by
  have hU : uniqueKeys (insertOrReplace c d) := by
    unfold insertOrReplace uniqueKeys
    rw [List.pairwise_append]
    refine ⟨List.Pairwise.filter _ h, List.pairwise_singleton _ _, ?_⟩
    intro a ha b hb
    rw [List.mem_singleton] at hb
    subst hb
    have := (List.mem_filter.mp ha).2
    simpa using this
  refine ⟨hU, ?_, ?_⟩
  · intro hany
    unfold insertOrReplace
    rw [List.length_append]
    have := filter_out_key_length c d h hany
    simp only [List.length_cons, List.length_nil]
    omega
  · intro a ha b hb hab
    by_cases heq : a = b
    · exact heq
    · exfalso
      have hsym : Symmetric (fun a b : SchemaDescriptor => keyEqb a b = false) := by
        intro x y hxy
        rw [keyEqb_symm]
        exact hxy
      have hfalse := List.Pairwise.forall hsym hU ha hb heq
      rw [hab] at hfalse
      cases hfalse

/-- C8 witness: re-loading the descriptor for `(query_history, id)` into
the seeded catalog replaces it — the catalog's length is unchanged. -/
theorem C8_catalog_unique_witness :
    (insertOrReplace table_column_descriptions
        ⟨"query_history", "id", "Surrogate key"⟩).length =
      table_column_descriptions.length :=
  (C8_catalog_unique table_column_descriptions ⟨"query_history", "id", "Surrogate key"⟩
    (by unfold uniqueKeys; decide)).2.1 (by decide)

/-! ## Claim C2 -/

theorem defaultTitle_query_result (q : QueryHistoryItem) :
    (defaultTitle q).query_result = q.query_result := by
  unfold defaultTitle
  split
  · rfl
  · rfl

theorem defaultTitle_title_isSome (q : QueryHistoryItem) :
    (defaultTitle q).title.isSome = true := by
  unfold defaultTitle
  split
  · rfl
  · next hfalse =>
    cases ht : q.title with
    | none => rw [ht] at hfalse; exact absurd rfl hfalse
    | some s => rfl

theorem normalizeQuery_title (q : QueryHistoryItem) :
    (normalizeQuery q).title = (defaultTitle q).title := by
  unfold normalizeQuery
  cases h : (defaultTitle q).query_result with
  | rstr s =>
    cases hp : parseResult s with
    | none => simp [h, hp]
    | some rows => simp [h, hp]
  | rjson rows => simp [h]

/-- C2 counterexample: the claim that every record persisted and
returned carries the explanation and title fields is false of the
store — the persisted `query_history` table declares neither a
`gpt_explanation` nor a `title` column. -/
theorem C2_fields_counterexample :
    queryHistoryColumns.contains "gpt_explanation" = false ∧
    queryHistoryColumns.contains "title" = false := by decide

/-- C2 amended: every persisted `query_history` column is among the
declared QueryRecord JSON shape's fields, but `gpt_explanation` and
`title` are interface-only — the persisted table has no such columns —
and the frontend itself guarantees a present (possibly empty) title
only by defaulting it on read. -/
theorem C2_fields_amended :
    queryHistoryColumns.all (fun c => queryHistoryItemFields.contains c) = true ∧
    queryHistoryItemFields.contains "gpt_explanation" = true ∧
    queryHistoryItemFields.contains "title" = true ∧
    queryHistoryColumns.contains "gpt_explanation" = false ∧
    queryHistoryColumns.contains "title" = false ∧
    ∀ q : QueryHistoryItem, (normalizeQuery q).title.isSome = true := by
  refine ⟨by decide, by decide, by decide, by decide, by decide, ?_⟩
  intro q
  rw [normalizeQuery_title]
  exact defaultTitle_title_isSome q

/-! ## Claim C9 -/

/-- C9 counterexample: an item with a missing title and an unparsable
`query_result` string — the catch branch returns it with the title
already defaulted, so not literally unchanged. -/
theorem C9_catch_counterexample : normalizeQuery qBad ≠ qBad := by decide

/-- C9 amended: the normalization is a total function that never
propagates a parse exception — `JSON.parse` is applied only when
`query_result` is a string; on parse failure (and on non-string values)
the item is returned with every field unchanged except that a missing
title has been defaulted; on success only `query_result` is replaced by
the parsed value. -/
theorem C9_normalize_amended (q : QueryHistoryItem) :
    (∀ s, q.query_result = .rstr s → parseResult s = none →
      normalizeQuery q = defaultTitle q) ∧
    (∀ rows, q.query_result = .rjson rows → normalizeQuery q = defaultTitle q) ∧
    (∀ s rows, q.query_result = .rstr s → parseResult s = some rows →
      normalizeQuery q = { defaultTitle q with query_result := .rjson rows }) := by
  have hqr := defaultTitle_query_result q
  refine ⟨?_, ?_, ?_⟩
  · intro s hs hp
    unfold normalizeQuery
    simp [hqr, hs, hp]
  · intro rows hr
    unfold normalizeQuery
    simp [hqr, hr]
  · intro s rows hs hp
    unfold normalizeQuery
    simp [hqr, hs, hp]

/-- C9 witness: on the unparsable concrete item the normalization
returns the title-defaulted item with `query_result` unchanged. -/
theorem C9_normalize_amended_witness :
    normalizeQuery qBad = defaultTitle qBad :=
  (C9_normalize_amended qBad).1 "oops" rfl (by decide)

/-! ## Claim C10 -/

/-- C10: the NOT NULL constraints make a partially populated record
unrepresentable — an INSERT into `query_history` succeeds iff
`session_id`, `natural_query`, `sql_query` and `query_result` are all
non-null — and the stored row's `timestamp` defaults to the insertion
time (`CURRENT_TIMESTAMP`) when not supplied. -/
theorem C10_not_null_defaults (now : Nat) (st : Store) (p : PendingRow) :
    ((insertHistory now st p).isSome = true ↔
      (p.session_id.isSome && p.natural_query.isSome && p.sql_query.isSome &&
        p.query_result.isSome) = true) ∧
    (∀ st', insertHistory now st p = some st' →
      st'.rows = st.rows ++ [insertedRow now st p] ∧
      st'.nextId = st.nextId + 1) := by
  rcases p with ⟨s1, s2, s3, s4, s5⟩
  constructor
  · unfold insertHistory
    cases s1 <;> cases s2 <;> cases s3 <;> cases s4 <;> simp
  · intro st' h
    unfold insertHistory at h
    cases s1 with
    | none => cases h
    | some a1 =>
      cases s2 with
      | none => cases h
      | some a2 =>
        cases s3 with
        | none => cases h
        | some a3 =>
          cases s4 with
          | none => cases h
          | some a4 =>
            injection h with h'
            subst h'
            exact ⟨by simp [insertedRow], rfl⟩

/-- C10 witness: a concrete INSERT with all NOT NULL columns present and
no timestamp stores exactly one row whose timestamp is the creation
time 7. -/
theorem C10_not_null_defaults_witness :
    stP.rows = emptyStore.rows ++ [insertedRow 7 emptyStore pW] ∧
    stP.nextId = emptyStore.nextId + 1 :=
  (C10_not_null_defaults 7 emptyStore pW).2 stP rfl

end NlSql
